import Mathlib

/-!
# Verification of `scripts/generate_zobrist_keys.py`

A shallow embedding of the Zobrist-key generator script: the module-level
constants, the random key tables drawn at lines 11-18, the three formatting
functions (`format_zobrist_table`, `format_zobrist_array`,
`format_zobrist_scalar`), the two artifact texts built by
`create_header_file` / `create_cpp_file`, and the script's top-level run
(two sequential file writes).

Machine values are `Nat` with explicit `% 2^64` where the source draws
unsigned 64-bit integers.  Python's `f"0x{value:016X}ULL"` formatting is
embedded exactly (uppercase hexadecimal, zero-padded to width 16, wider
when the value needs more than 16 digits).
-/

/-! ## Module constants (lines 7-9) -/

def COLOURS_NUM : Nat := 2

def PIECES_NUM : Nat := 6

def SQUARES_NUM : Nat := 64

/-! ## Python hexadecimal formatting: `f"{value:016X}"` -/

/-- The uppercase hexadecimal digit character for `n < 16`
(`'0'`..`'9'` then `'A'`..`'F'`), as Python's `X` format spec emits. -/
def hexChar (n : Nat) : Char :=
  if n < 10 then Char.ofNat (48 + n) else Char.ofNat (55 + n)

/-- Fuel-driven digit accumulation (most significant digit first), the
standard shape of `Nat.toDigits`; the fuel `n+1` always suffices. -/
def hexDigitsCore : Nat → Nat → List Char → List Char
  | 0, _, acc => acc
  | fuel + 1, n, acc =>
    if n < 16 then hexChar n :: acc
    else hexDigitsCore fuel (n / 16) (hexChar (n % 16) :: acc)

/-- The uppercase hexadecimal digits of `n`, no padding: Python `f"{n:X}"`. -/
def hexDigits (n : Nat) : List Char :=
  hexDigitsCore (n + 1) n []

/-- Zero-pad a digit run on the left to width 16: Python's `016` in
`f"{n:016X}"` (a run already 16 or longer is unchanged). -/
def pad16 (cs : List Char) : List Char :=
  List.replicate (16 - cs.length) '0' ++ cs

/-- The literal the script emits for one key value:
`f"0x{value:016X}ULL"` (lines 28, 37, 42). -/
def litOf (value : Nat) : String :=
  String.mk ('0' :: 'x' :: (pad16 (hexDigits value) ++ ['U', 'L', 'L']))

/-! ## Parsing a literal back (round-trip check) -/

/-- The value of one uppercase hexadecimal digit character. -/
def hexCharVal (c : Char) : Option Nat :=
  if 48 ≤ c.toNat ∧ c.toNat ≤ 57 then some (c.toNat - 48)
  else if 65 ≤ c.toNat ∧ c.toNat ≤ 70 then some (c.toNat - 55)
  else none

/-- Left-to-right accumulation of hexadecimal digits. -/
def parseHexAcc (acc : Nat) : List Char → Option Nat
  | [] => some acc
  | c :: cs =>
    match hexCharVal c with
    | some d => parseHexAcc (acc * 16 + d) cs
    | none => none

/-- Parse a serialized literal `0x<digits>ULL` back to its value. -/
def parseLit (s : String) : Option Nat :=
  match s.data with
  | c0 :: c1 :: rest =>
    if c0 = '0' ∧ c1 = 'x' ∧ rest.drop (rest.length - 3) = ['U', 'L', 'L']
        ∧ rest.length ≥ 4 then
      parseHexAcc 0 (rest.take (rest.length - 3))
    else none
  | _ => none

/-! ## The formatting functions (lines 21-42) -/

/-- Line 28: `", ".join(f"0x{value:016X}ULL" for value in table[colour, piece])`. -/
def format_zobrist_row (row : List Nat) : String :=
  String.intercalate ", " (row.map litOf)

/-- The lines `format_zobrist_table` joins with `"\n"` (lines 22-33):
a header naming the module-level dimensions, then for each colour a brace
block of one line per piece row, then the closing brace. -/
def format_zobrist_tableLines (table : List (List (List Nat))) (var_name : String) :
    List String :=
  ("constexpr uint64_t " ++ var_name ++ "[" ++ toString COLOURS_NUM ++ "]["
      ++ toString PIECES_NUM ++ "][" ++ toString SQUARES_NUM ++ "] = \x7b")
    :: (table.flatMap fun colour =>
        "    \x7b"
          :: colour.map (fun row => "    \x7b" ++ format_zobrist_row row ++ "\x7d,")
          ++ ["    \x7d,"])
    ++ ["\x7d;"]

/-- Lines 21-34: converts the table to a C++ style string. -/
def format_zobrist_table (table : List (List (List Nat))) (var_name : String) : String :=
  String.intercalate "\n" (format_zobrist_tableLines table var_name)

/-- Lines 36-38. -/
def format_zobrist_array (array : List Nat) (var_name : String) : String :=
  "inline constexpr uint64_t " ++ var_name ++ "[" ++ toString array.length
    ++ "] = \x7b" ++ String.intercalate ", " (array.map litOf) ++ "\x7d;"

/-- Lines 40-42: `array[0]` raises on an empty array, hence `Option`. -/
def format_zobrist_scalar (array : List Nat) (var_name : String) : Option String :=
  array.head?.map fun value =>
    "inline constexpr uint64_t " ++ var_name ++ " = " ++ litOf value ++ ";"

/-! ## The generated key set (lines 11-18)

The script draws, in order, 2*6*64 piece keys (row-major over colour,
piece, square), 4 castling keys, 8 en-passant keys, and a 1-element
player-turn array, each an unsigned 64-bit integer in `[0, 2^64)`.  The
draws are a stream of values from the generator: we pass the stream
explicitly (index `i` is the `i`-th value drawn) and reduce each draw
modulo `2^64`, which is the range `integers(low=0, high=2**64,
dtype=uint64)` delivers. -/

structure KeyTable where
  zobrist_table : List (List (List Nat))
  zobrist_castling : List Nat
  zobrist_en_passant : List Nat
  zobrist_player_turn : List Nat
  deriving DecidableEq, Repr

/-- Lines 14-18: fill the four blocks from one stream of draws. -/
def buildTable (stream : Nat → Nat) : KeyTable where
  zobrist_table :=
    (List.range COLOURS_NUM).map fun colour =>
      (List.range PIECES_NUM).map fun piece =>
        (List.range SQUARES_NUM).map fun square =>
          stream ((colour * PIECES_NUM + piece) * SQUARES_NUM + square) % 2 ^ 64
  zobrist_castling :=
    (List.range 4).map fun i => stream (COLOURS_NUM * PIECES_NUM * SQUARES_NUM + i) % 2 ^ 64
  zobrist_en_passant :=
    (List.range 8).map fun i => stream (COLOURS_NUM * PIECES_NUM * SQUARES_NUM + 4 + i) % 2 ^ 64
  zobrist_player_turn :=
    [stream (COLOURS_NUM * PIECES_NUM * SQUARES_NUM + 12) % 2 ^ 64]

/-- Modelled from the spec: the script always seeds with `None`
(line 11, `numpy.random.default_rng(seed=None)`), so the seeded path the
spec requires ("if provided, generation must be fully reproducible") is
not in the source.  A seeded run draws from a stream determined by the
seed alone; an unseeded run draws from the ambient entropy source. -/
def seededStream (s : Nat) : Nat → Nat :=
  fun i => (s + (i + 1) * 2654435761) % 2 ^ 64

/-- Modelled from the spec: `generate(seed)`.  `seed = none` is the code
path of lines 11-18 (entropy source); `seed = some s` is the reproducible
path the spec demands. -/
def generate (seed : Option Nat) (entropy : Nat → Nat) : KeyTable :=
  buildTable (match seed with
    | some s => seededStream s
    | none => entropy)

/-- All 2*6*64 + 4 + 8 + 1 keys of a table, flattened. -/
def allKeys (t : KeyTable) : List Nat :=
  (t.zobrist_table.flatMap id).flatMap id
    ++ t.zobrist_castling ++ t.zobrist_en_passant ++ t.zobrist_player_turn

/-- Total number of piece-table entries (the literals the table block
serializes). -/
def tableLiteralCount (table : List (List (List Nat))) : Nat :=
  (table.map fun colour => (colour.map List.length).sum).sum

/-- Whether a table has the script's shape `(2, 6, 64)`. -/
def isStandardShape (table : List (List (List Nat))) : Bool :=
  table.length == COLOURS_NUM
    && table.all fun colour =>
      colour.length == PIECES_NUM && colour.all fun row => row.length == SQUARES_NUM

/-! ## The two artifacts (lines 44-82) -/

/-- The lines of the dedented header f-string (lines 49-63), with the
interpolated auxiliary-key strings in place. -/
def header_lines (t : KeyTable) (player_turn_str : String) : List String :=
  [ "#ifndef ZOBRIST_KEYS_H",
    "#define ZOBRIST_KEYS_H",
    "",
    "#include <cstdint>",
    "",
    "extern const uint64_t zobristTable[" ++ toString COLOURS_NUM ++ "]["
      ++ toString PIECES_NUM ++ "][" ++ toString SQUARES_NUM ++ "];",
    "",
    format_zobrist_array t.zobrist_castling "zobristCastling",
    format_zobrist_array t.zobrist_en_passant "zobristEnPassant",
    player_turn_str,
    "",
    "#endif // ZOBRIST_KEYS_H",
    "" ]

/-- Lines 44-63: the header artifact's text.  `none` when
`format_zobrist_scalar` raises (empty player-turn array). -/
def header_code (t : KeyTable) : Option String :=
  (format_zobrist_scalar t.zobrist_player_turn "zobristPlayerTurn").map fun pts =>
    String.intercalate "\n" (header_lines t pts)

/-- Lines 70-77: the cpp artifact's text: the two includes then the
serialized piece table. -/
def cpp_code (t : KeyTable) : String :=
  String.intercalate "\n" ["#include <cstdint>", "#include \"zobrist_keys.h\"", "", ""]
    ++ format_zobrist_table t.zobrist_table "zobristTable"

/-- Line 84. -/
def header_file_path : String := "backend/include/zobrist_keys.h"

/-- Line 87. -/
def cpp_relative_path : String := "backend/src/zobrist_keys.cpp"

/-- The observable outcome of one run of the script: the file writes it
performed, in order, and whether it stopped with an error. -/
structure ScriptRun where
  writes : List (String × String)
  errored : Bool
  deriving DecidableEq, Repr

/-- Lines 84-88 (with lines 11-18 and the write inside each `create_*`
call): generation happens first; then the header is formatted and written;
then the cpp file is formatted and written.  `entropyOk`, `headerOk` and
`cppOk` say whether the entropy draw and the two file writes succeed; a
failure aborts the script at that point, keeping the writes already made. -/
def runScript (entropyOk headerOk cppOk : Bool) (entropy : Nat → Nat) : ScriptRun :=
  if entropyOk = false then ⟨[], true⟩
  else
    let t := generate none entropy
    match header_code t with
    | none => ⟨[], true⟩
    | some h =>
      if headerOk = false then ⟨[], true⟩
      else if cppOk = false then ⟨[(header_file_path, h)], true⟩
      else ⟨[(header_file_path, h), (cpp_relative_path, cpp_code t)], false⟩

/-! ## The incremental hash update (spec section 4.2) -/

/-- Modelled from the spec: the consumer-facing incremental update —
"expressible as an XOR of a small, fixed number of keys into the running
hash".  Not in the source (the engine consuming the table is external). -/
def applyUpdate (h u : Nat) : Nat := h ^^^ u

/-- Modelled from the spec: the single XOR word combining the fixed set of
keys a move touches. -/
def xorKeys (keys : List Nat) : Nat := keys.foldl (fun a k => a ^^^ k) 0

/-! ## Lemmas: the hexadecimal literal is faithful and invertible -/

/-- Reference recursion for the digit run (proof-side twin of
`hexDigitsCore`'s fuel loop). -/
def hexList (n : Nat) : List Char :=
  if _h : n < 16 then [hexChar n]
  else hexList (n / 16) ++ [hexChar (n % 16)]
termination_by n
decreasing_by
  exact Nat.div_lt_self (by omega) (by omega)

lemma hexDigitsCore_eq_hexList :
    ∀ fuel n acc, n < fuel → hexDigitsCore fuel n acc = hexList n ++ acc := by
  intro fuel
  induction fuel with
  | zero => intro n acc h; omega
  | succ f ih =>
    intro n acc h
    rw [hexDigitsCore, hexList]
    by_cases h16 : n < 16
    · simp [h16]
    · have hdiv : n / 16 < n := Nat.div_lt_self (by omega) (by omega)
      simp only [if_neg h16, dif_neg h16]
      rw [ih (n / 16) _ (by omega)]
      simp

lemma hexDigits_eq_hexList (n : Nat) : hexDigits n = hexList n := by
  simpa using hexDigitsCore_eq_hexList (n + 1) n [] (Nat.lt_succ_self n)

lemma hexList_ne_nil (n : Nat) : hexList n ≠ [] := by
  rw [hexList]
  by_cases h16 : n < 16 <;> simp [h16]

lemma hexCharVal_hexChar : ∀ d, d < 16 → hexCharVal (hexChar d) = some d := by
  decide

lemma parseHexAcc_append (xs : List Char) :
    ∀ a ys, parseHexAcc a (xs ++ ys)
      = (parseHexAcc a xs).bind fun b => parseHexAcc b ys := by
  induction xs with
  | nil => intro a ys; simp [parseHexAcc]
  | cons c cs ih =>
    intro a ys
    simp only [List.cons_append, parseHexAcc]
    cases hexCharVal c with
    | none => simp
    | some d => simp [ih]

lemma parseHexAcc_hexList (n : Nat) :
    ∀ a, parseHexAcc a (hexList n) = some (a * 16 ^ (hexList n).length + n) := by
  induction n using Nat.strong_induction_on with
  | _ n ih =>
    intro a
    rw [hexList]
    by_cases h16 : n < 16
    · simp [h16, parseHexAcc, hexCharVal_hexChar n h16]
    · have hdiv : n / 16 < n := Nat.div_lt_self (by omega) (by omega)
      simp only [dif_neg h16]
      rw [parseHexAcc_append, ih (n / 16) hdiv a]
      simp only [Option.some_bind, Option.bind_some, parseHexAcc,
        hexCharVal_hexChar (n % 16) (Nat.mod_lt n (by omega)),
        List.length_append, List.length_singleton]
      congr 1
      have h1 : (a * 16 ^ (hexList (n / 16)).length + n / 16) * 16 + n % 16
          = a * (16 ^ (hexList (n / 16)).length * 16) + (n / 16 * 16 + n % 16) := by
        ring
      have h2 : n / 16 * 16 + n % 16 = n := by omega
      simp only [List.length_singleton, h1, h2, pow_succ]

lemma pad16_length (cs : List Char) : (pad16 cs).length = max 16 cs.length := by
  simp [pad16]
  omega

lemma parseHexAcc_replicate_zero :
    ∀ k cs, parseHexAcc 0 (List.replicate k '0' ++ cs) = parseHexAcc 0 cs := by
  intro k
  induction k with
  | zero => intro cs; simp
  | succ m ih =>
    intro cs
    have hz : hexCharVal '0' = some 0 := by decide
    simp only [List.replicate_succ, List.cons_append, parseHexAcc, hz]
    simpa using ih cs

lemma parseHexAcc_pad16_hexDigits (v : Nat) :
    parseHexAcc 0 (pad16 (hexDigits v)) = some v := by
  rw [pad16, parseHexAcc_replicate_zero, hexDigits_eq_hexList, parseHexAcc_hexList]
  simp

/-- The core round-trip law: parsing the emitted literal recovers the
value exactly, for every natural number value. -/
lemma parseLit_litOf (v : Nat) : parseLit (litOf v) = some v := by
  have hlen : (pad16 (hexDigits v)).length ≥ 16 := by
    rw [pad16_length]; omega
  rw [litOf, parseLit]
  simp only [String.data]
  have harr : (pad16 (hexDigits v) ++ ['U', 'L', 'L']).length
      = (pad16 (hexDigits v)).length + 3 := by
    simp
  rw [if_pos]
  · rw [harr, Nat.add_sub_cancel, List.take_left]
    exact parseHexAcc_pad16_hexDigits v
  · refine ⟨by trivial, by trivial, ?_, ?_⟩
    · rw [harr, Nat.add_sub_cancel, List.drop_left]
    · rw [harr]; omega

/-- `litOf` is injective (on all of `Nat`, hence on `[0, 2^64)`). -/
lemma litOf_injective : Function.Injective litOf := by
  intro v w h
  have := parseLit_litOf v
  rw [h, parseLit_litOf w] at this
  exact (Option.some_inj.mp this).symm

lemma hexList_length_le (k : Nat) :
    ∀ n, n < 16 ^ (k + 1) → (hexList n).length ≤ k + 1 := by
  induction k with
  | zero =>
    intro n hn
    rw [hexList]
    have : n < 16 := by simpa using hn
    simp [this]
  | succ m ih =>
    intro n hn
    rw [hexList]
    by_cases h16 : n < 16
    · simp [h16]
    · have hdiv : n / 16 < 16 ^ (m + 1) := by
        rw [Nat.div_lt_iff_lt_mul (by omega)]
        calc n < 16 ^ (m + 1 + 1) := hn
        _ = 16 ^ (m + 1) * 16 := by ring
      simp only [dif_neg h16, List.length_append, List.length_singleton]
      have := ih (n / 16) hdiv
      omega

/-- For an unsigned 64-bit value the digit run is at most 16 wide, so the
zero-padded run is exactly 16 characters. -/
lemma pad16_hexDigits_length (v : Nat) (hv : v < 2 ^ 64) :
    (pad16 (hexDigits v)).length = 16 := by
  rw [pad16_length, hexDigits_eq_hexList]
  have h64 : (2 : Nat) ^ 64 = 16 ^ (15 + 1) := by norm_num
  have := hexList_length_le 15 v (by omega)
  omega

/-- The character set Python's uppercase `X` format emits. -/
def hexUpperChars : List Char :=
  ['0', '1', '2', '3', '4', '5', '6', '7', '8', '9', 'A', 'B', 'C', 'D', 'E', 'F']

lemma hexChar_mem_hexUpperChars : ∀ d, d < 16 → hexChar d ∈ hexUpperChars := by
  decide

lemma hexList_subset_hexUpperChars (n : Nat) :
    ∀ c ∈ hexList n, c ∈ hexUpperChars := by
  induction n using Nat.strong_induction_on with
  | _ n ih =>
    intro c hc
    rw [hexList] at hc
    by_cases h16 : n < 16
    · rw [dif_pos h16] at hc
      simp only [List.mem_singleton] at hc
      exact hc ▸ hexChar_mem_hexUpperChars n h16
    · rw [dif_neg h16] at hc
      rcases List.mem_append.mp hc with h | h
      · exact ih (n / 16) (Nat.div_lt_self (by omega) (by omega)) c h
      · simp only [List.mem_singleton] at h
        exact h ▸ hexChar_mem_hexUpperChars (n % 16) (Nat.mod_lt n (by omega))

lemma pad16_hexDigits_subset (v : Nat) :
    ∀ c ∈ pad16 (hexDigits v), c ∈ hexUpperChars := by
  intro c hc
  rcases List.mem_append.mp hc with h | h
  · rw [List.eq_of_mem_replicate h]
    decide
  · exact hexList_subset_hexUpperChars v c (hexDigits_eq_hexList v ▸ h)

/-! ## Lemmas: the generated table's shape and range -/

lemma isStandardShape_buildTable (stream : Nat → Nat) :
    isStandardShape (buildTable stream).zobrist_table = true := by
  simp only [isStandardShape, buildTable, Bool.and_eq_true, beq_iff_eq,
    List.length_map, List.length_range, List.all_eq_true]
  refine ⟨by trivial, ?_⟩
  intro colour hc
  rcases List.mem_map.mp hc with ⟨c, _, rfl⟩
  simp only [Bool.and_eq_true, beq_iff_eq, List.length_map, List.length_range,
    List.all_eq_true]
  refine ⟨by trivial, ?_⟩
  intro row hr
  rcases List.mem_map.mp hr with ⟨p, _, rfl⟩
  simp

lemma tableLiteralCount_buildTable (stream : Nat → Nat) :
    tableLiteralCount (buildTable stream).zobrist_table
      = COLOURS_NUM * PIECES_NUM * SQUARES_NUM := by
  have h2 : List.range 2 = [0, 1] := rfl
  have h6 : List.range 6 = [0, 1, 2, 3, 4, 5] := rfl
  norm_num [tableLiteralCount, buildTable, COLOURS_NUM, PIECES_NUM, SQUARES_NUM, h2, h6]

lemma mem_allKeys_buildTable {stream : Nat → Nat} {k : Nat}
    (hk : k ∈ allKeys (buildTable stream)) : ∃ i, k = stream i % 2 ^ 64 := by
  simp only [allKeys, buildTable, List.mem_append, List.mem_flatMap, List.mem_map,
    List.mem_range, id, List.mem_singleton] at hk
  rcases hk with ((⟨row, ⟨c, ⟨colour, _, rfl⟩, hrow⟩, hk⟩ | ⟨i, _, rfl⟩) | ⟨i, _, rfl⟩) | rfl
  · rcases List.mem_map.mp hrow with ⟨piece, _, rfl⟩
    rcases List.mem_map.mp hk with ⟨square, _, rfl⟩
    exact ⟨_, rfl⟩
  · exact ⟨_, rfl⟩
  · exact ⟨_, rfl⟩
  · exact ⟨_, rfl⟩

/-! ## Lemmas: the serialized output's structure -/

/-- The literals the table block emits, one per entry, in emission order. -/
def tableLiterals (table : List (List (List Nat))) : List String :=
  table.flatMap fun colour => colour.flatMap fun row => row.map litOf

lemma tableLiterals_length (table : List (List (List Nat))) :
    (tableLiterals table).length = tableLiteralCount table := by
  simp only [tableLiterals, tableLiteralCount, List.length_flatMap, List.map_map]
  refine congrArg List.sum (List.map_congr_left fun colour _ => ?_)
  simp only [Function.comp, List.length_flatMap, List.map_map]
  exact congrArg List.sum (List.map_congr_left fun row _ => by simp)

lemma format_zobrist_tableLines_length
    (table : List (List (List Nat))) (var_name : String) :
    (format_zobrist_tableLines table var_name).length
      = 2 + (table.map fun colour => colour.length + 2).sum := by
  simp only [format_zobrist_tableLines, List.length_cons, List.length_append,
    List.length_singleton, List.length_nil]
  induction table with
  | nil => simp
  | cons c cs ih =>
    simp only [List.flatMap_cons, List.length_append, List.length_cons,
      List.length_map, List.length_nil, List.map_cons, List.sum_cons] at *
    omega

/-- On any generated table the player-turn array is a singleton, so
`format_zobrist_scalar` succeeds and the header artifact is produced. -/
lemma header_code_buildTable (stream : Nat → Nat) :
    header_code (buildTable stream)
      = some (String.intercalate "\n" (header_lines (buildTable stream)
          ("inline constexpr uint64_t zobristPlayerTurn = "
            ++ litOf (stream (COLOURS_NUM * PIECES_NUM * SQUARES_NUM + 12) % 2 ^ 64)
            ++ ";"))) := by
  rfl

/-! ## The claims -/

/-- C1: for every seed value S, calling `generate` with `seed = S` twice
yields bit-identical key tables, whatever the ambient entropy was; and
when the seed is omitted (`none`, the script's own call at line 11), the
result depends on the entropy source: two entropy sources are exhibited
whose tables differ. -/
theorem C1_seeded_reproducible_unseeded_entropic :
    (∀ (S : Nat) (e₁ e₂ : Nat → Nat), generate (some S) e₁ = generate (some S) e₂)
    ∧ (generate none (fun _ => 0)).zobrist_player_turn = [0]
    ∧ (generate none (fun _ => 1)).zobrist_player_turn = [1]
    ∧ generate none (fun _ => 0) ≠ generate none (fun _ => 1) := by
  refine ⟨fun S e₁ e₂ => rfl, by decide, by decide, ?_⟩
  intro h
  have := congrArg KeyTable.zobrist_player_turn h
  simp only [generate, buildTable] at this
  exact absurd (List.head_eq_of_cons_eq this) (by decide)

/-- C2: the incremental update (an XOR of a fixed set of keys, modelled
from spec section 4.2) is self-inverse — applying the same update twice
returns the hash — and associative under XOR. -/
theorem C2_update_self_inverse_associative :
    ∀ (h : Nat) (keys : List Nat),
      applyUpdate (applyUpdate h (xorKeys keys)) (xorKeys keys) = h
      ∧ ∀ u v : Nat, applyUpdate (applyUpdate h u) v = applyUpdate h (u ^^^ v) := by
  intro h keys
  constructor
  · simp [applyUpdate, Nat.xor_assoc]
  · intro u v
    simp [applyUpdate, Nat.xor_assoc]

/-- C3: serialization is a deterministic function of the table (two calls
on the same table produce identical text — the formatting functions take
no other input), and it is bit-exact: for every unsigned 64-bit value
(indeed every natural value) parsing the emitted literal back yields
exactly the original value. -/
theorem C3_serialize_deterministic_bit_exact :
    (∀ (table : List (List (List Nat))) (var_name : String),
      format_zobrist_table table var_name = format_zobrist_table table var_name)
    ∧ (∀ (array : List Nat) (var_name : String),
      format_zobrist_array array var_name = format_zobrist_array array var_name)
    ∧ ∀ value : Nat, parseLit (litOf value) = some value :=
  ⟨fun _ _ => rfl, fun _ _ => rfl, parseLit_litOf⟩

/-- C4: every generated key (piece, castling, en-passant, side-to-move)
lies in `[0, 2^64 - 1]`, for every seed and entropy source; and no value
of `[0, 2^64)` is excluded by construction — for each such value there is
an entropy stream under which every key equals it. -/
theorem C4_keys_in_unsigned_range_full_range :
    (∀ (seed : Option Nat) (entropy : Nat → Nat) (k : Nat),
      k ∈ allKeys (generate seed entropy) → k < 2 ^ 64)
    ∧ ∀ x : Nat, x < 2 ^ 64 →
      ∃ entropy : Nat → Nat, ∀ k ∈ allKeys (generate none entropy), k = x := by
  constructor
  · intro seed entropy k hk
    obtain ⟨i, rfl⟩ := mem_allKeys_buildTable hk
    exact Nat.mod_lt _ (by norm_num)
  · intro x hx
    refine ⟨fun _ => x, fun k hk => ?_⟩
    obtain ⟨i, rfl⟩ := mem_allKeys_buildTable hk
    exact Nat.mod_eq_of_lt hx

/-- C7: the generated key set has exactly the data model's shape —
a 2 x 6 x 64 piece table (768 keys), 4 castling keys, 8 en-passant keys
and a single side-to-move key — for every seed and entropy source. -/
theorem C7_key_set_has_standard_shape :
    ∀ (seed : Option Nat) (entropy : Nat → Nat),
      isStandardShape (generate seed entropy).zobrist_table = true
      ∧ tableLiteralCount (generate seed entropy).zobrist_table = 2 * 6 * 64
      ∧ (generate seed entropy).zobrist_castling.length = 4
      ∧ (generate seed entropy).zobrist_en_passant.length = 8
      ∧ (generate seed entropy).zobrist_player_turn.length = 1 := by
  intro seed entropy
  refine ⟨isStandardShape_buildTable _, ?_, ?_, ?_, ?_⟩
  · exact tableLiteralCount_buildTable _
  · simp [generate, buildTable]
  · simp [generate, buildTable]
  · simp [generate, buildTable]

/-- C9: for every unsigned 64-bit value the emitted literal is `0x`, then
exactly 16 zero-padded digits drawn from the uppercase hexadecimal
alphabet, then `ULL`; and the formatting function is injective. -/
theorem C9_literal_fixed_width_uppercase_injective :
    ∀ value : Nat, value < 2 ^ 64 →
      (litOf value).data = '0' :: 'x' :: (pad16 (hexDigits value) ++ ['U', 'L', 'L'])
      ∧ (pad16 (hexDigits value)).length = 16
      ∧ (∀ c ∈ pad16 (hexDigits value), c ∈ hexUpperChars)
      ∧ ∀ w : Nat, litOf value = litOf w → value = w := by
  intro v hv
  exact ⟨rfl, pad16_hexDigits_length v hv, pad16_hexDigits_subset v,
    fun w h => litOf_injective h⟩

/-- Witness for C9 at the concrete value 255: the hypothesis
`255 < 2^64` is discharged and the fixed-width literal facts hold. -/
theorem C9_witness :
    (litOf 255).data = '0' :: 'x' :: (pad16 (hexDigits 255) ++ ['U', 'L', 'L'])
    ∧ (pad16 (hexDigits 255)).length = 16
    ∧ (∀ c ∈ pad16 (hexDigits 255), c ∈ hexUpperChars)
    ∧ ∀ w : Nat, litOf 255 = litOf w → 255 = w :=
  C9_literal_fixed_width_uppercase_injective 255 (by norm_num)

/-- C8: a successful run emits exactly two artifacts — the header
(declarations unit), which declares the piece table `extern` and defines
the castling, en-passant and side-to-move keys as constants, and the cpp
file (definitions unit), which carries the piece table's literal values —
and nothing else. -/
theorem C8_exactly_two_artifacts :
    ∀ entropy : Nat → Nat,
      ∃ pts : String,
        format_zobrist_scalar (generate none entropy).zobrist_player_turn
            "zobristPlayerTurn" = some pts
        ∧ header_code (generate none entropy)
          = some (String.intercalate "\n" (header_lines (generate none entropy) pts))
        ∧ ("extern const uint64_t zobristTable[" ++ toString COLOURS_NUM ++ "]["
            ++ toString PIECES_NUM ++ "][" ++ toString SQUARES_NUM ++ "];")
          ∈ header_lines (generate none entropy) pts
        ∧ format_zobrist_array (generate none entropy).zobrist_castling
            "zobristCastling" ∈ header_lines (generate none entropy) pts
        ∧ format_zobrist_array (generate none entropy).zobrist_en_passant
            "zobristEnPassant" ∈ header_lines (generate none entropy) pts
        ∧ pts ∈ header_lines (generate none entropy) pts
        ∧ cpp_code (generate none entropy)
          = String.intercalate "\n"
              ["#include <cstdint>", "#include \"zobrist_keys.h\"", "", ""]
            ++ format_zobrist_table (generate none entropy).zobrist_table
                "zobristTable"
        ∧ (runScript true true true entropy).writes
          = [(header_file_path,
              String.intercalate "\n" (header_lines (generate none entropy) pts)),
             (cpp_relative_path, cpp_code (generate none entropy))]
        ∧ (runScript true true true entropy).errored = false := by
  intro entropy
  refine ⟨"inline constexpr uint64_t zobristPlayerTurn = "
      ++ litOf (entropy (COLOURS_NUM * PIECES_NUM * SQUARES_NUM + 12) % 2 ^ 64)
      ++ ";", rfl, rfl, ?_, ?_, ?_, ?_, rfl, rfl, rfl⟩
  · simp [header_lines]
  · simp [header_lines]
  · simp [header_lines]
  · simp [header_lines]

/-- The header text a successful run writes (the interpolated player-turn
constant spelled out), as a function of the entropy stream. -/
def header_text (entropy : Nat → Nat) : String :=
  String.intercalate "\n" (header_lines (buildTable entropy)
    ("inline constexpr uint64_t zobristPlayerTurn = "
      ++ litOf (entropy (COLOURS_NUM * PIECES_NUM * SQUARES_NUM + 12) % 2 ^ 64) ++ ";"))

lemma runScript_true_eq (hOk cOk : Bool) (entropy : Nat → Nat) :
    runScript true hOk cOk entropy
      = if hOk = false then ⟨[], true⟩
        else if cOk = false then ⟨[(header_file_path, header_text entropy)], true⟩
        else ⟨[(header_file_path, header_text entropy),
               (cpp_relative_path, cpp_code (buildTable entropy))], false⟩ := by
  rfl

/-- C5 counterexample: an execution in which generation and the header
write succeed but the cpp write fails leaves exactly one of the two output
files emitted — a partial artifact, contradicting "never one of the two
output files without the other". -/
theorem C5_counterexample_partial_artifact :
    (runScript true true false (fun _ => 0)).errored = true
    ∧ (runScript true true false (fun _ => 0)).writes.map Prod.fst
      = [header_file_path]
    ∧ header_file_path ≠ cpp_relative_path := by
  refine ⟨rfl, rfl, by decide⟩

/-- C5 amended: generation-time errors do abort the run before any output
is written, and the cpp file is never emitted without the header; but the
two files are written sequentially, so a run can emit the header alone. -/
theorem C5_amended_generation_errors_precede_output :
    ∀ (entropyOk headerOk cppOk : Bool) (entropy : Nat → Nat),
      (entropyOk = false →
        runScript entropyOk headerOk cppOk entropy = ⟨[], true⟩)
      ∧ ((runScript entropyOk headerOk cppOk entropy).writes.map Prod.fst = []
        ∨ (runScript entropyOk headerOk cppOk entropy).writes.map Prod.fst
          = [header_file_path]
        ∨ (runScript entropyOk headerOk cppOk entropy).writes.map Prod.fst
          = [header_file_path, cpp_relative_path]) := by
  intro entropyOk headerOk cppOk entropy
  cases entropyOk with
  | false => exact ⟨fun _ => rfl, Or.inl rfl⟩
  | true =>
    refine ⟨fun h => absurd h (by simp), ?_⟩
    rw [runScript_true_eq]
    cases headerOk <;> cases cppOk <;> simp

/-- C6 counterexample: serialization does not fail on a wrong-shaped
table or an out-of-range value.  On the 1 x 1 x 1 table holding `2^64`
(outside the unsigned 64-bit range) `format_zobrist_table` succeeds and
emits a 17-digit literal, and so does `format_zobrist_array`. -/
theorem C6_counterexample_serialization_succeeds :
    isStandardShape [[[2 ^ 64]]] = false
    ∧ format_zobrist_table [[[2 ^ 64]]] "zobristTable"
      = "constexpr uint64_t zobristTable[2][6][64] = \x7b\n    \x7b\n    \x7b0x10000000000000000ULL\x7d,\n    \x7d,\n\x7d;"
    ∧ format_zobrist_array [2 ^ 64] "zobristCastling"
      = "inline constexpr uint64_t zobristCastling[1] = \x7b0x10000000000000000ULL\x7d;" := by
  refine ⟨by decide, by decide, by decide⟩

/-- C6 amended: the generator's table dimensions are the hardcoded
positive constants (2, 6, 64), so non-positive dimensions cannot be
requested; and serialization never fails — on every table (well-shaped or
not, in-range or not) `format_zobrist_table` produces the full line
structure, and `format_zobrist_scalar` succeeds on every non-empty
array. -/
theorem C6_amended_dimensions_positive_serialization_total :
    (0 < COLOURS_NUM ∧ 0 < PIECES_NUM ∧ 0 < SQUARES_NUM)
    ∧ (∀ (table : List (List (List Nat))) (var_name : String),
      format_zobrist_table table var_name
        = String.intercalate "\n" (format_zobrist_tableLines table var_name)
      ∧ (format_zobrist_tableLines table var_name).length
        = 2 + (table.map fun colour => colour.length + 2).sum)
    ∧ ∀ (x : Nat) (array : List Nat) (var_name : String),
      format_zobrist_scalar (x :: array) var_name
        = some ("inline constexpr uint64_t " ++ var_name ++ " = " ++ litOf x ++ ";") := by
  refine ⟨⟨by norm_num [COLOURS_NUM], by norm_num [PIECES_NUM], by norm_num [SQUARES_NUM]⟩,
    ?_, ?_⟩
  · intro t v
    exact ⟨rfl, format_zobrist_tableLines_length t v⟩
  · intro x a v
    rfl

set_option maxRecDepth 8000 in
/-- C10 counterexample: a table of shape 1 x 1 x 768 differs from
`(2, 6, 64)` yet serializes with exactly 768 literals — the number the
declared dimensions `[2][6][64]` announce — so "stated dimensions disagree
with the number of literals emitted" fails for it. -/
theorem C10_counterexample_count_matches_despite_shape :
    isStandardShape [[List.replicate 768 0]] = false
    ∧ tableLiteralCount [[List.replicate 768 0]]
      = COLOURS_NUM * PIECES_NUM * SQUARES_NUM
    ∧ (tableLiterals [[List.replicate 768 0]]).length
      = COLOURS_NUM * PIECES_NUM * SQUARES_NUM
    ∧ (format_zobrist_tableLines [[List.replicate 768 0]] "zobristTable").head?
      = some "constexpr uint64_t zobristTable[2][6][64] = \x7b" := by
  refine ⟨by decide, by decide, ?_, by decide⟩
  rw [tableLiterals_length]
  decide

/-- C10 amended: `format_zobrist_table` takes the declared dimensions in
its header line from the module-level constants while iterating over the
input's actual shape; it succeeds on every input, always declaring
`[2][6][64]`; the number of literals emitted is the table's total entry
count (so the two disagree exactly when that count differs from 768); and
for tables of shape `(2, 6, 64)` the declared dimensions always match
the emitted data. -/
theorem C10_amended_header_dims_from_constants :
    ∀ (table : List (List (List Nat))) (var_name : String),
      (format_zobrist_tableLines table var_name).head?
        = some ("constexpr uint64_t " ++ var_name ++ "[" ++ toString COLOURS_NUM
            ++ "][" ++ toString PIECES_NUM ++ "][" ++ toString SQUARES_NUM
            ++ "] = \x7b")
      ∧ (tableLiterals table).length = tableLiteralCount table
      ∧ (isStandardShape table = true →
          tableLiteralCount table = COLOURS_NUM * PIECES_NUM * SQUARES_NUM) := by
  intro t v
  refine ⟨rfl, tableLiterals_length t, ?_⟩
  intro hshape
  simp only [isStandardShape, Bool.and_eq_true, beq_iff_eq, List.all_eq_true] at hshape
  obtain ⟨hlen, hall⟩ := hshape
  rw [tableLiteralCount]
  have houter : ∀ s ∈ t.map (fun colour => (colour.map List.length).sum),
      s = PIECES_NUM * SQUARES_NUM := by
    intro s hs
    obtain ⟨colour, hc, rfl⟩ := List.mem_map.mp hs
    obtain ⟨hclen, hrows⟩ := hall colour hc
    have hinner : ∀ n ∈ colour.map List.length, n = SQUARES_NUM := by
      intro n hn
      obtain ⟨row, hr, rfl⟩ := List.mem_map.mp hn
      exact hrows row hr
    rw [List.sum_eq_card_nsmul _ _ hinner, List.length_map, hclen, smul_eq_mul]
  rw [List.sum_eq_card_nsmul _ _ houter, List.length_map, hlen, smul_eq_mul,
    Nat.mul_assoc]
